import Mathlib

/-!
Shallow embedding of the cost-monitoring dashboard backend
(src/controllers/costController.ts and src/models/CostRecord.ts).

Modelling conventions:
- A calendar date (Sequelize DATEONLY) is a natural number; ISO date strings
  compare lexicographically exactly as their day numbers compare, so the
  date ordering used by the SQL comparisons is the order on Nat.
- A monetary amount (DECIMAL(10,2)) is an integer number of cents, so SQL
  SUM aggregation is exact integer addition.
- The record store (the cost_records table) is a list of rows in insertion
  order.  A SELECT with an ORDER BY clause is a stable merge sort of the
  rows by the requested key, a SELECT with GROUP BY produces one row per
  distinct key, and LIMIT / OFFSET are List.take / List.drop.
- The query-string layer may deliver each of serviceName, region and
  accountId either absent, as a single string, or as an array of strings;
  StrParam is that three-way shape, mirroring the Array.isArray dispatch
  in the controller.
-/

/-- One row of the cost_records table (model CostRecord, required columns).
The date is a day number, costAmount an integer number of cents. -/
structure CostRecord where
  id : Nat
  date : Nat
  serviceName : String
  costAmount : Int
  region : String
  accountId : String
deriving DecidableEq, Repr

/-- A query-string parameter that may be absent, a single string, or an
array of strings, mirroring the Array.isArray test in the controller. -/
inductive StrParam where
  | absent
  | one (v : String)
  | many (vs : List String)
deriving DecidableEq, Repr

/-- The raw filter parameters of the read endpoints (FilterQuery in
src/types/index.ts, date strings translated to day numbers). -/
structure FilterQuery where
  startDate : Option Nat
  endDate : Option Nat
  serviceName : StrParam
  region : StrParam
  accountId : StrParam
deriving DecidableEq, Repr

/-- The per-dimension where-clause entry built by the controller: absent
parameter adds no constraint, a single value an equality constraint, an
array an Op.in membership constraint. -/
def StrParam.matches : StrParam → String → Bool
  | .absent, _ => true
  | .one v, s => s == v
  | .many vs, s => vs.contains s

/-- The date part of getCostRecords' whereClause: Op.between when both
bounds are present, Op.gte for only startDate, Op.lte for only endDate,
no constraint when neither is present. -/
def listDateOk (startDate endDate : Option Nat) (d : Nat) : Bool :=
  match startDate, endDate with
  | some sd, some ed => decide (sd ≤ d) && decide (d ≤ ed)
  | some sd, none => decide (sd ≤ d)
  | none, some ed => decide (d ≤ ed)
  | none, none => true

/-- The date part of the whereClause built by getCostSummaryByService and
getCostTrends: those handlers only install Op.between when both bounds are
present and add no date constraint otherwise. -/
def rangeOnlyDateOk (startDate endDate : Option Nat) (d : Nat) : Bool :=
  match startDate, endDate with
  | some sd, some ed => decide (sd ≤ d) && decide (d ≤ ed)
  | _, _ => true

/-- Whether a record satisfies the whereClause of getCostRecords. -/
def matchesList (q : FilterQuery) (r : CostRecord) : Bool :=
  listDateOk q.startDate q.endDate r.date
    && q.serviceName.matches r.serviceName
    && q.region.matches r.region
    && q.accountId.matches r.accountId

/-- Whether a record satisfies the whereClause of getCostSummaryByService. -/
def matchesSummary (q : FilterQuery) (r : CostRecord) : Bool :=
  rangeOnlyDateOk q.startDate q.endDate r.date
    && q.serviceName.matches r.serviceName
    && q.region.matches r.region
    && q.accountId.matches r.accountId

/-- Whether a record satisfies the whereClause of getCostTrends (the
trends handler builds its whereClause exactly as the summary handler). -/
def matchesTrends (q : FilterQuery) (r : CostRecord) : Bool :=
  rangeOnlyDateOk q.startDate q.endDate r.date
    && q.serviceName.matches r.serviceName
    && q.region.matches r.region
    && q.accountId.matches r.accountId

/-- Modelled from the spec: the per-dimension constraint of a FilterSpec
as the spec states it (absent unconstrained, scalar exact case-sensitive
equality, array match-any). -/
def specDimOk : StrParam → String → Prop
  | .absent, _ => True
  | .one v, s => s = v
  | .many vs, s => s ∈ vs

/-- Modelled from the spec: the compiled date bound as the spec states it
(both bounds a closed interval, one bound open-ended, none unconstrained). -/
def specDateOk (startDate endDate : Option Nat) (d : Nat) : Prop :=
  match startDate, endDate with
  | some sd, some ed => sd ≤ d ∧ d ≤ ed
  | some sd, none => sd ≤ d
  | none, some ed => d ≤ ed
  | none, none => True

lemma strParam_matches_iff (p : StrParam) (s : String) :
    p.matches s = true ↔ specDimOk p s := by
  cases p with
  | absent => simp [StrParam.matches, specDimOk]
  | one v => simp [StrParam.matches, specDimOk]
  | many vs => simp [StrParam.matches, specDimOk, List.contains_iff_exists_mem_beq,
      beq_iff_eq]

lemma listDateOk_iff (sd ed : Option Nat) (d : Nat) :
    listDateOk sd ed d = true ↔ specDateOk sd ed d := by
  cases sd <;> cases ed <;> simp [listDateOk, specDateOk]

lemma rangeOnlyDateOk_iff (sd ed : Option Nat) (d : Nat) :
    rangeOnlyDateOk sd ed d = true ↔
      (match sd, ed with
       | some s, some e => s ≤ d ∧ d ≤ e
       | _, _ => True) := by
  cases sd <;> cases ed <;> simp [rangeOnlyDateOk]

/-- Pagination metadata returned by getCostRecords. -/
structure Pagination where
  currentPage : Nat
  totalPages : Nat
  totalRecords : Nat
  recordsPerPage : Nat
deriving DecidableEq, Repr

/-- The payload of the list endpoint: the page of rows plus metadata. -/
structure ListResponse where
  rows : List CostRecord
  pagination : Pagination
deriving DecidableEq, Repr

/-- The records selected by getCostRecords' whereClause. -/
def listMatching (store : List CostRecord) (q : FilterQuery) : List CostRecord :=
  store.filter (fun r => matchesList q r)

/-- The ORDER BY date DESC comparison used by getCostRecords. -/
def dateDescLe (a b : CostRecord) : Bool := decide (b.date ≤ a.date)

/-- The matching records in the order the store returns them: sorted by
date descending, ties left in insertion order (stable sort). -/
def sortedListMatching (store : List CostRecord) (q : FilterQuery) : List CostRecord :=
  (listMatching store q).mergeSort dateDescLe

/-- GET /api/costs (getCostRecords): findAndCountAll with the compiled
whereClause, ORDER BY date DESC, limit and offset = (page-1)*limit, and
pagination metadata with totalPages = Math.ceil(count/limit), which on
naturals with limit > 0 is (count + limit - 1) / limit. -/
def getCostRecords (store : List CostRecord) (q : FilterQuery) (page limit : Nat) :
    ListResponse :=
  { rows := ((sortedListMatching store q).drop ((page - 1) * limit)).take limit
    pagination :=
      { currentPage := page
        totalPages := ((listMatching store q).length + limit - 1) / limit
        totalRecords := (listMatching store q).length
        recordsPerPage := limit } }

/-- One row of the summary endpoint after formatting (CostSummaryItem). -/
structure CostSummaryItem where
  serviceName : String
  totalCost : Int
  recordCount : Nat
deriving DecidableEq, Repr

/-- The ORDER BY SUM(cost_amount) DESC comparison used by the summary
query. -/
def totalDescLe (a b : CostSummaryItem) : Bool := decide (b.totalCost ≤ a.totalCost)

/-- GET /api/costs/summary (getCostSummaryByService): findAll with the
compiled whereClause, GROUP BY serviceName computing SUM(cost_amount) and
COUNT(id), ORDER BY SUM(cost_amount) DESC.  Groups are one per distinct
serviceName of the matching records; the sort is stable, so equal totals
stay in the group ordering the store produced. -/
def getCostSummaryByService (store : List CostRecord) (q : FilterQuery) :
    List CostSummaryItem :=
  let m := store.filter (fun r => matchesSummary q r)
  let keys := (m.map (fun r => r.serviceName)).dedup
  let rows := keys.map (fun s =>
    { serviceName := s
      totalCost := ((m.filter (fun r => r.serviceName == s)).map (fun r => r.costAmount)).sum
      recordCount := (m.filter (fun r => r.serviceName == s)).length : CostSummaryItem })
  rows.mergeSort totalDescLe

/-- One row of the trends endpoint after formatting (CostTrendItem). -/
structure CostTrendItem where
  date : Nat
  dailyCost : Int
deriving DecidableEq, Repr

/-- The ORDER BY date ASC comparison used by the trends query. -/
def dateAscLe (a b : CostTrendItem) : Bool := decide (a.date ≤ b.date)

/-- GET /api/costs/trends (getCostTrends): findAll with the compiled
whereClause, GROUP BY date computing SUM(cost_amount), ORDER BY date ASC. -/
def getCostTrends (store : List CostRecord) (q : FilterQuery) :
    List CostTrendItem :=
  let m := store.filter (fun r => matchesTrends q r)
  let keys := (m.map (fun r => r.date)).dedup
  let rows := keys.map (fun d =>
    { date := d
      dailyCost := ((m.filter (fun r => r.date == d)).map (fun r => r.costAmount)).sum : CostTrendItem })
  rows.mergeSort dateAscLe

/-- The payload of the filters endpoint (AvailableFilters). -/
structure AvailableFilters where
  services : List String
  regions : List String
  accounts : List String
deriving DecidableEq, Repr

/-- GET /api/costs/filters (getAvailableFilters): three SELECT DISTINCT
queries over the whole table. -/
def getAvailableFilters (store : List CostRecord) : AvailableFilters :=
  { services := (store.map (fun r => r.serviceName)).dedup
    regions := (store.map (fun r => r.region)).dedup
    accounts := (store.map (fun r => r.accountId)).dedup }

lemma sum_map_single {κ M : Type} [DecidableEq κ] [AddCommMonoid M]
    (keys : List κ) (hnd : keys.Nodup) (a : κ) (ha : a ∈ keys) (c : M) :
    (keys.map (fun s => if a = s then c else 0)).sum = c := by
  induction keys with
  | nil => cases ha
  | cons k ks ih =>
    rcases List.nodup_cons.mp hnd with ⟨hk, hks⟩
    rcases List.mem_cons.mp ha with h | h
    · subst h
      have hz : ((ks.map (fun s => if a = s then c else 0)).sum : M) = 0 := by
        apply List.sum_eq_zero
        intro x hx
        rcases List.mem_map.mp hx with ⟨s, hs, rfl⟩
        exact if_neg (fun e => hk (by rw [e]; exact hs))
      simp [hz]
    · have hka : ¬ (a = k) := fun e => hk (by rw [← e]; exact h)
      simp [hka, ih hks h]

lemma sum_map_pointwise_add {κ M : Type} [AddCommMonoid M] (f g : κ → M) :
    ∀ (l : List κ), (l.map (fun s => f s + g s)).sum = (l.map f).sum + (l.map g).sum
  | [] => by simp
  | a :: t => by
    rw [List.map_cons, List.sum_cons, sum_map_pointwise_add f g t, List.map_cons,
      List.sum_cons, List.map_cons, List.sum_cons]
    exact add_add_add_comm _ _ _ _

lemma sum_map_groups {α κ M : Type} [DecidableEq κ] [AddCommMonoid M]
    (key : α → κ) (w : α → M) :
    ∀ (m : List α) (keys : List κ), keys.Nodup → (∀ a ∈ m, key a ∈ keys) →
      (keys.map (fun s => ((m.filter (fun a => key a == s)).map w).sum)).sum
        = (m.map w).sum
  | [], keys, _, _ => by
    simp only [List.filter_nil, List.map_nil, List.sum_nil]
    apply List.sum_eq_zero
    intro x hx
    rcases List.mem_map.mp hx with ⟨s, hs, rfl⟩
    rfl
  | a :: m2, keys, hnd, hmem => by
    have ih := sum_map_groups key w m2 keys hnd (fun x hx => hmem x (List.mem_cons_of_mem a hx))
    have hterm : ∀ s ∈ keys,
        (((a :: m2).filter (fun x => key x == s)).map w).sum
          = (if key a = s then w a else 0)
              + ((m2.filter (fun x => key x == s)).map w).sum := by
      intro s _
      by_cases h : key a = s
      · simp [List.filter_cons, h]
      · simp [List.filter_cons, h]
    rw [List.map_congr_left hterm, sum_map_pointwise_add _ _ keys, ih,
      sum_map_single keys hnd (key a) (hmem a (List.mem_cons_self a m2)) (w a)]
    simp

lemma sum_map_one {α : Type} : ∀ (l : List α), (l.map (fun _ => (1 : Nat))).sum = l.length
  | [] => rfl
  | a :: t => by rw [List.map_cons, List.sum_cons, sum_map_one t, List.length_cons]; omega

lemma join_pages {α : Type} (k : Nat) (hk : 0 < k) :
    ∀ (l : List α),
      ((List.range ((l.length + k - 1) / k)).map (fun i => (l.drop (i * k)).take k)).flatten = l
  | [] => by
    have h0 : (0 + k - 1) / k = 0 := Nat.div_eq_of_lt (by omega)
    simp [h0]
  | a :: t => by
    have hlen : (a :: t).length = t.length + 1 := rfl
    have h1 : ((a :: t).length + k - 1) / k = (t.length + k) / k := by
      rw [hlen]; congr 1; omega
    have h2 : (t.length + k) / k = t.length / k + 1 := Nat.add_div_right _ hk
    have h3 : (((a :: t).drop k).length + k - 1) / k = t.length / k := by
      rcases Nat.le_total k (t.length + 1) with hle | hlt
      · have : ((a :: t).drop k).length = t.length + 1 - k := by
          rw [List.length_drop, hlen]
        rw [this]
        have he : t.length + 1 - k + k - 1 = t.length := by omega
        rw [he]
      · have : ((a :: t).drop k).length = 0 := by
          rw [List.length_drop, hlen]; omega
        rw [this]
        have he1 : (0 + k - 1) / k = 0 := Nat.div_eq_of_lt (by omega)
        have he2 : t.length / k = 0 := Nat.div_eq_of_lt (by omega)
        rw [he1, he2]
    have ihdrop := join_pages k hk ((a :: t).drop k)
    rw [h3] at ihdrop
    rw [h1, h2, List.range_succ_eq_map, List.map_cons, List.flatten_cons,
      List.map_map]
    have hfun : ((List.range (t.length / k)).map
          ((fun i => ((a :: t).drop (i * k)).take k) ∘ Nat.succ))
        = (List.range (t.length / k)).map
          (fun i => (((a :: t).drop k).drop (i * k)).take k) := by
      apply List.map_congr_left
      intro i _
      simp only [Function.comp]
      rw [List.drop_drop]
      congr 2
      rw [Nat.succ_mul, Nat.add_comm]
    rw [hfun, ihdrop]
    simp
termination_by l => l.length
decreasing_by
  simp only [List.length_drop]
  omega

/-- The longest leading run of decimal digits of a character list. -/
def leadingDigits : List Char → List Char
  | [] => []
  | c :: cs => if c.isDigit then c :: leadingDigits cs else []

/-- What remains after the longest leading run of decimal digits. -/
def afterLeadingDigits : List Char → List Char
  | [] => []
  | c :: cs => if c.isDigit then afterLeadingDigits cs else c :: cs

/-- The numeric value of a digit run. -/
def digitsToNat (ds : List Char) : Nat :=
  ds.foldl (fun a c => a * 10 + (c.toNat - 48)) 0

/-- Model of the JavaScript parseFloat builtin on the decimal notations the
store driver can emit: skip leading spaces, read an optional sign, then the
longest prefix of the form digits, digits.digits or .digits.  The result is
none exactly when parseFloat returns NaN (no numeric prefix at all). -/
def jsParseFloat (s : String) : Option Rat :=
  let cs := s.data.dropWhile (fun c => c == ' ')
  let signed : Rat × List Char :=
    match cs with
    | '-' :: t => (-1, t)
    | '+' :: t => (1, t)
    | _ => (1, cs)
  let intDs := leadingDigits signed.2
  let rest := afterLeadingDigits signed.2
  match intDs, rest with
  | [], '.' :: t =>
      let fracDs := leadingDigits t
      if fracDs.isEmpty then none
      else some (signed.1 * ((digitsToNat fracDs : Rat) / (10 : Rat) ^ fracDs.length))
  | [], _ => none
  | ds, '.' :: t =>
      let fracDs := leadingDigits t
      some (signed.1 * ((digitsToNat ds : Rat)
        + (digitsToNat fracDs : Rat) / (10 : Rat) ^ fracDs.length))
  | ds, _ => some (signed.1 * (digitsToNat ds : Rat))

/-- Model of the JavaScript parseInt builtin at radix 10: skip leading
spaces, read an optional sign and then the longest digit run; none exactly
when parseInt returns NaN (no digits). -/
def jsParseInt10 (s : String) : Option Int :=
  let cs := s.data.dropWhile (fun c => c == ' ')
  let signed : Int × List Char :=
    match cs with
    | '-' :: t => (-1, t)
    | '+' :: t => (1, t)
    | _ => (1, cs)
  let ds := leadingDigits signed.2
  if ds.isEmpty then none else some (signed.1 * (digitsToNat ds : Int))

/-- The JavaScript truthiness default applied by the formatter: the
expression (value as string || zeroLiteral) replaces an absent value
(undefined or null) and the empty string by the literal zero string. -/
def orZeroString : Option String → String
  | none => "0"
  | some s => if s = "" then "0" else s

/-- The totalCost field computed by getCostSummaryByService's formatter:
parseFloat applied to the raw aggregate with the truthiness default.  A
none result models NaN. -/
def formatTotalCost (raw : Option String) : Option Rat :=
  jsParseFloat (orZeroString raw)

/-- The recordCount field computed by getCostSummaryByService's formatter:
parseInt at radix 10 applied to the raw aggregate with the truthiness
default.  A none result models NaN. -/
def formatRecordCount (raw : Option String) : Option Int :=
  jsParseInt10 (orZeroString raw)

/-- The dailyCost field computed by getCostTrends' formatter: parseFloat
applied to the raw aggregate with the truthiness default. -/
def formatDailyCost (raw : Option String) : Option Rat :=
  jsParseFloat (orZeroString raw)

/-- How a handler reports its result through the response or the error
middleware: ok, or one of the typed errors of src/utils/errors.ts used by
the cost controller (ValidationError 400, NotFoundError 404, DatabaseError
500). -/
inductive RequestOutcome (α : Type) where
  | ok (value : α)
  | validationFailure (message : String)
  | notFound (message : String)
  | storeFailure (message : String)
deriving DecidableEq

/-- The create/update request body: every CostRecord column optional, as
JSON bodies are. -/
structure RecordPayload where
  date : Option Nat
  serviceName : Option String
  costAmount : Option Int
  region : Option String
  accountId : Option String
deriving DecidableEq, Repr

/-- POST /api/costs (createCostRecord): the handler calls
CostRecord.create directly; when a required (allowNull false) column is
missing the store layer throws, the catch block wraps every error into
DatabaseError with this fixed message, and otherwise the row is inserted
with a fresh id.  No code path produces a ValidationError. -/
def createCostRecord (store : List CostRecord) (p : RecordPayload) (newId : Nat) :
    List CostRecord × RequestOutcome CostRecord :=
  match p.date, p.serviceName, p.costAmount, p.region, p.accountId with
  | some d, some s, some c, some reg, some a =>
      let r : CostRecord :=
        { id := newId, date := d, serviceName := s, costAmount := c,
          region := reg, accountId := a }
      (store ++ [r], .ok r)
  | _, _, _, _, _ => (store, .storeFailure "Failed to create cost record")

/-- Overwriting a record with the supplied fields of an update payload. -/
def applyUpdate (p : RecordPayload) (r : CostRecord) : CostRecord :=
  { r with
    date := p.date.getD r.date
    serviceName := p.serviceName.getD r.serviceName
    costAmount := p.costAmount.getD r.costAmount
    region := p.region.getD r.region
    accountId := p.accountId.getD r.accountId }

/-- PUT /api/costs/:id (updateCostRecord): findByPk, NotFoundError when
absent, otherwise the row is overwritten in place. -/
def updateCostRecord (store : List CostRecord) (rid : Nat) (p : RecordPayload) :
    List CostRecord × RequestOutcome CostRecord :=
  match store.find? (fun r => r.id == rid) with
  | none => (store, .notFound "Cost record not found")
  | some r =>
      let r2 := applyUpdate p r
      (store.map (fun x => if x.id == rid then r2 else x), .ok r2)

/-- DELETE /api/costs/:id (deleteCostRecord): findByPk, NotFoundError when
absent, otherwise the row is destroyed. -/
def deleteCostRecord (store : List CostRecord) (rid : Nat) :
    List CostRecord × RequestOutcome Unit :=
  match store.find? (fun r => r.id == rid) with
  | none => (store, .notFound "Cost record not found")
  | some _ => (store.filter (fun r => r.id != rid), .ok ())

/-- The list endpoint as a state transformer over the store: the handler
only issues findAndCountAll, so the table is handed back unchanged. -/
def runGetCostRecords (store : List CostRecord) (q : FilterQuery) (page limit : Nat) :
    List CostRecord × ListResponse :=
  (store, getCostRecords store q page limit)

/-- The summary endpoint as a state transformer over the store. -/
def runGetCostSummaryByService (store : List CostRecord) (q : FilterQuery) :
    List CostRecord × List CostSummaryItem :=
  (store, getCostSummaryByService store q)

/-- The trends endpoint as a state transformer over the store. -/
def runGetCostTrends (store : List CostRecord) (q : FilterQuery) :
    List CostRecord × List CostTrendItem :=
  (store, getCostTrends store q)

/-- The filters endpoint as a state transformer over the store. -/
def runGetAvailableFilters (store : List CostRecord) :
    List CostRecord × AvailableFilters :=
  (store, getAvailableFilters store)

lemma rangeOnlyDateOk_iff_both (sd ed : Option Nat) (d : Nat) :
    rangeOnlyDateOk sd ed d = true ↔
      (∀ s e, sd = some s → ed = some e → (s ≤ d ∧ d ≤ e)) := by
  cases sd <;> cases ed <;> simp [rangeOnlyDateOk]

/-- C1: a record is in the list endpoint's matching set exactly when it is
in the store, satisfies the compiled date bound (closed interval for both
bounds, open-ended for one, unconstrained for none) and satisfies every
present per-dimension constraint (absent unconstrained, scalar exact
case-sensitive equality, array match-any). -/
theorem listFilterMatchesSpec (store : List CostRecord) (q : FilterQuery) (r : CostRecord) :
    r ∈ listMatching store q ↔
      r ∈ store
      ∧ specDateOk q.startDate q.endDate r.date
      ∧ specDimOk q.serviceName r.serviceName
      ∧ specDimOk q.region r.region
      ∧ specDimOk q.accountId r.accountId := by
  rw [listMatching, List.mem_filter]
  simp only [matchesList, Bool.and_eq_true, listDateOk_iff, strParam_matches_iff, and_assoc]

/-- A record dated before the lone startDate bound, used to observe the
summary and trends date handling. -/
def earlyRecord : CostRecord :=
  { id := 1, date := 5, serviceName := "EC2", costAmount := 1050,
    region := "us-east-1", accountId := "123456789012" }

/-- A filter query carrying only a startDate. -/
def startOnlyQuery : FilterQuery :=
  { startDate := some 10, endDate := none,
    serviceName := .absent, region := .absent, accountId := .absent }

/-- C2 counterexample: with only startDate supplied, the summary and trends
handlers keep a record dated before startDate (their whereClause has no
date entry), while the list handler excludes it. -/
theorem summaryTrendsIgnoreLoneStartDate :
    earlyRecord.date < 10
    ∧ matchesSummary startOnlyQuery earlyRecord = true
    ∧ matchesTrends startOnlyQuery earlyRecord = true
    ∧ matchesList startOnlyQuery earlyRecord = false
    ∧ getCostSummaryByService [earlyRecord] startOnlyQuery
        = [{ serviceName := "EC2", totalCost := 1050, recordCount := 1 }]
    ∧ getCostTrends [earlyRecord] startOnlyQuery = [{ date := 5, dailyCost := 1050 }] := by
  refine ⟨by decide, by decide, by decide, by decide, ?_, ?_⟩
  · rw [show getCostSummaryByService [earlyRecord] startOnlyQuery
        = List.mergeSort [{ serviceName := "EC2", totalCost := 1050, recordCount := 1 }]
            totalDescLe from rfl]
    rw [List.mergeSort_singleton]
  · rw [show getCostTrends [earlyRecord] startOnlyQuery
        = List.mergeSort [{ date := 5, dailyCost := 1050 }] dateAscLe from rfl]
    rw [List.mergeSort_singleton]

/-- C2 amended: the summary and trends endpoints share one whereClause
whose date part applies only when both startDate and endDate are present
(then as the closed interval); with at most one bound supplied the date is
unconstrained, and the per-dimension constraints behave as for the list
endpoint. -/
theorem summaryTrendsDateBoundBothOnly (store : List CostRecord) (q : FilterQuery) (r : CostRecord) :
    matchesTrends q r = matchesSummary q r
    ∧ (r ∈ store.filter (fun x => matchesSummary q x) ↔
        r ∈ store
        ∧ (∀ s e, q.startDate = some s → q.endDate = some e → (s ≤ r.date ∧ r.date ≤ e))
        ∧ specDimOk q.serviceName r.serviceName
        ∧ specDimOk q.region r.region
        ∧ specDimOk q.accountId r.accountId) := by
  constructor
  · rfl
  · rw [List.mem_filter]
    simp only [matchesSummary, Bool.and_eq_true, rangeOnlyDateOk_iff_both,
      strParam_matches_iff, and_assoc]

/-- Two records on the same date whose services tie on total cost, the
service that is lexicographically later inserted first. -/
def tieStore : List CostRecord :=
  [{ id := 1, date := 7, serviceName := "Beta", costAmount := 100,
     region := "r1", accountId := "a1" },
   { id := 2, date := 7, serviceName := "Alpha", costAmount := 100,
     region := "r1", accountId := "a1" }]

/-- The filter query with no constraints at all. -/
def unconstrainedQuery : FilterQuery :=
  { startDate := none, endDate := none,
    serviceName := .absent, region := .absent, accountId := .absent }

/-- C4 counterexample: on tied totals the summary keeps the store's group
order (first appearance), so Beta precedes Alpha and the output is not
ordered by serviceName ascending. -/
theorem summaryTieOrderCounterexample :
    (getCostSummaryByService tieStore unconstrainedQuery).map (fun i => i.totalCost) = [100, 100]
    ∧ (getCostSummaryByService tieStore unconstrainedQuery).map (fun i => i.serviceName)
        = ["Beta", "Alpha"]
    ∧ (getCostSummaryByService tieStore unconstrainedQuery).map (fun i => i.serviceName)
        ≠ ["Alpha", "Beta"] := by
  have h : getCostSummaryByService tieStore unconstrainedQuery
      = [{ serviceName := "Beta", totalCost := 100, recordCount := 1 },
         { serviceName := "Alpha", totalCost := 100, recordCount := 1 }] := by
    rw [show getCostSummaryByService tieStore unconstrainedQuery
        = List.mergeSort
            [{ serviceName := "Beta", totalCost := 100, recordCount := 1 },
             { serviceName := "Alpha", totalCost := 100, recordCount := 1 }]
            totalDescLe from rfl]
    exact List.mergeSort_of_sorted (by decide)
  rw [h]
  exact ⟨rfl, rfl, by decide⟩

/-- C8 counterexample: the formatter only defaults falsy raw values; on a
non-empty unparseable aggregate string parseFloat and parseInt return NaN
(modelled none), not 0. -/
theorem formatterUnparseableYieldsNaN :
    formatTotalCost (some "abc") = none
    ∧ formatRecordCount (some "abc") = none
    ∧ formatDailyCost (some "abc") = none
    ∧ formatTotalCost (some "abc") ≠ some 0 := by
  refine ⟨rfl, rfl, rfl, ?_⟩
  rw [show formatTotalCost (some "abc") = none from rfl]
  simp

/-- C8 amended: an absent aggregate (undefined/null, or the empty string)
is defaulted to the zero literal before parsing, so sums format to 0 and
counts to 0, and the formatter is total (no parse failure is propagated as
a request failure); only a non-empty unparseable string produces NaN. -/
theorem formatterDefaultsAbsentToZero :
    formatTotalCost none = some 0
    ∧ formatRecordCount none = some 0
    ∧ formatDailyCost none = some 0
    ∧ formatTotalCost (some "") = some 0
    ∧ formatRecordCount (some "") = some 0
    ∧ formatDailyCost (some "") = some 0 := by
  have h1 : formatTotalCost none = some 0 := by
    show some ((1 : Rat) * ((0 : Nat) : Rat)) = some 0
    norm_num
  have h2 : formatRecordCount none = some 0 := by decide
  have h3 : formatDailyCost none = some 0 := h1
  have h4 : formatTotalCost (some "") = some 0 := h1
  have h5 : formatRecordCount (some "") = some 0 := h2
  have h6 : formatDailyCost (some "") = some 0 := h1
  exact ⟨h1, h2, h3, h4, h5, h6⟩

/-- C9: a create whose payload misses a required column is reported through
the catch-all as DatabaseError 500 (a store failure), and no code path of
createCostRecord ever reports a ValidationError. -/
theorem createMissingFieldStoreFailure :
    (createCostRecord []
        { date := none, serviceName := some "EC2", costAmount := some 1050,
          region := some "us-east-1", accountId := some "123456789012" } 1).2
      = RequestOutcome.storeFailure "Failed to create cost record"
    ∧ ∀ (store : List CostRecord) (p : RecordPayload) (newId : Nat) (msg : String),
        (createCostRecord store p newId).2 ≠ RequestOutcome.validationFailure msg := by
  refine ⟨rfl, ?_⟩
  intro store p newId msg
  rcases p with ⟨d, s, c, reg, a⟩
  cases d <;> cases s <;> cases c <;> cases reg <;> cases a <;> simp [createCostRecord]

/-- C10: the four read endpoints hand the store back unchanged; only
create, update and delete produce a new store state. -/
theorem readEndpointsLeaveStoreUnchanged (store : List CostRecord) (q : FilterQuery)
    (page limit : Nat) :
    (runGetCostRecords store q page limit).1 = store
    ∧ (runGetCostSummaryByService store q).1 = store
    ∧ (runGetCostTrends store q).1 = store
    ∧ (runGetAvailableFilters store).1 = store :=
  ⟨rfl, rfl, rfl, rfl⟩

/-- C4 amended: the summary output is ordered by totalCost descending; the
relative order of rows with equal totalCost is the store's group order, an
implementation detail, not serviceName ascending. -/
theorem summaryOrderedByTotalDesc (store : List CostRecord) (q : FilterQuery) :
    (getCostSummaryByService store q).Pairwise (fun a b => b.totalCost ≤ a.totalCost) := by
  have htrans : ∀ (a b c : CostSummaryItem),
      totalDescLe a b → totalDescLe b c → totalDescLe a c := by
    intro a b c
    simp only [totalDescLe, decide_eq_true_eq]
    omega
  have htotal : ∀ (a b : CostSummaryItem), totalDescLe a b || totalDescLe b a := by
    intro a b
    simp only [totalDescLe, Bool.or_eq_true, decide_eq_true_eq]
    omega
  exact (List.sorted_mergeSort htrans htotal _).imp
    (by intro a b h; simpa [totalDescLe] using h)

/-- C5: the summary rows partition the matching records by serviceName, so
their totalCost values add up to the total costAmount of the matching
records (exactly, in cents) and their recordCount values add up to the
number of matching records. -/
theorem summaryConservesTotals (store : List CostRecord) (q : FilterQuery) :
    ((getCostSummaryByService store q).map (fun i => i.totalCost)).sum
        = ((store.filter (fun r => matchesSummary q r)).map (fun r => r.costAmount)).sum
    ∧ ((getCostSummaryByService store q).map (fun i => i.recordCount)).sum
        = (store.filter (fun r => matchesSummary q r)).length := by
  have hmem : ∀ r ∈ store.filter (fun r => matchesSummary q r),
      r.serviceName ∈ (((store.filter (fun r => matchesSummary q r)).map
        (fun r => r.serviceName)).dedup) :=
    fun r hr => List.mem_dedup.mpr (List.mem_map_of_mem _ hr)
  have hperm : List.Perm (getCostSummaryByService store q)
      ((((store.filter (fun r => matchesSummary q r)).map (fun r => r.serviceName)).dedup).map
        (fun s =>
          { serviceName := s
            totalCost := (((store.filter (fun r => matchesSummary q r)).filter
                (fun r => r.serviceName == s)).map (fun r => r.costAmount)).sum
            recordCount := ((store.filter (fun r => matchesSummary q r)).filter
                (fun r => r.serviceName == s)).length : CostSummaryItem })) :=
    List.mergeSort_perm _ totalDescLe
  constructor
  · rw [List.Perm.sum_eq (hperm.map (fun i => i.totalCost)), List.map_map]
    exact sum_map_groups (fun r => r.serviceName) (fun r => r.costAmount)
      (store.filter (fun r => matchesSummary q r))
      (((store.filter (fun r => matchesSummary q r)).map (fun r => r.serviceName)).dedup)
      (List.nodup_dedup _) hmem
  · rw [List.Perm.sum_eq (hperm.map (fun i => i.recordCount)), List.map_map]
    have h2 := sum_map_groups (fun r => r.serviceName) (fun _ => (1 : Nat))
      (store.filter (fun r => matchesSummary q r))
      (((store.filter (fun r => matchesSummary q r)).map (fun r => r.serviceName)).dedup)
      (List.nodup_dedup _) hmem
    rw [sum_map_one] at h2
    refine Eq.trans ?_ h2
    congr 1
    apply List.map_congr_left
    intro s _
    exact (sum_map_one _).symm

/-- C7: the trends output has one row per distinct date of the matching
records carrying the exact cost sum of that date, rows in ascending date
order, and no row for a date with no matching record. -/
theorem trendsGrouping (store : List CostRecord) (q : FilterQuery) :
    ((getCostTrends store q).map (fun t => t.date)).Nodup
    ∧ (getCostTrends store q).Pairwise (fun a b => a.date ≤ b.date)
    ∧ (∀ t ∈ getCostTrends store q,
        t.dailyCost = (((store.filter (fun r => matchesTrends q r)).filter
            (fun r => r.date == t.date)).map (fun r => r.costAmount)).sum
        ∧ ∃ r ∈ store.filter (fun r => matchesTrends q r), r.date = t.date)
    ∧ (∀ r ∈ store.filter (fun r => matchesTrends q r),
        ∃ t ∈ getCostTrends store q, t.date = r.date) := by
  have hperm : List.Perm (getCostTrends store q)
      ((((store.filter (fun r => matchesTrends q r)).map (fun r => r.date)).dedup).map
        (fun d =>
          { date := d
            dailyCost := (((store.filter (fun r => matchesTrends q r)).filter
                (fun r => r.date == d)).map (fun r => r.costAmount)).sum : CostTrendItem })) :=
    List.mergeSort_perm _ dateAscLe
  refine ⟨?_, ?_, ?_, ?_⟩
  · rw [List.Perm.nodup_iff (hperm.map (fun t => t.date)), List.map_map]
    show ((((store.filter (fun r => matchesTrends q r)).map
        (fun r => r.date)).dedup).map (fun d => d)).Nodup
    simpa using List.nodup_dedup _
  · have htrans : ∀ (a b c : CostTrendItem),
        dateAscLe a b → dateAscLe b c → dateAscLe a c := by
      intro a b c
      simp only [dateAscLe, decide_eq_true_eq]
      omega
    have htotal : ∀ (a b : CostTrendItem), dateAscLe a b || dateAscLe b a := by
      intro a b
      simp only [dateAscLe, Bool.or_eq_true, decide_eq_true_eq]
      omega
    exact (List.sorted_mergeSort htrans htotal _).imp
      (by intro a b h; simpa [dateAscLe] using h)
  · intro t ht
    have ht2 := List.mem_mergeSort.mp ht
    rcases List.mem_map.mp ht2 with ⟨d, hd, rfl⟩
    refine ⟨rfl, ?_⟩
    rcases List.mem_map.mp (List.mem_dedup.mp hd) with ⟨r, hr, hrd⟩
    exact ⟨r, hr, hrd⟩
  · intro r hr
    refine ⟨{ date := r.date
              dailyCost := (((store.filter (fun r => matchesTrends q r)).filter
                  (fun x => x.date == r.date)).map (fun x => x.costAmount)).sum }, ?_, rfl⟩
    exact List.mem_mergeSort.mpr
      (List.mem_map_of_mem _ (List.mem_dedup.mpr (List.mem_map_of_mem _ hr)))

/-- C3: the list endpoint's row source is the filtered set sorted by date
descending with the stable (insertion-order) tie-break, every page holds at
most limit rows, and the pages 0..totalPages-1 concatenate back to exactly
that sorted set, so pagination neither duplicates nor drops rows. -/
theorem listPaginationPartition (store : List CostRecord) (q : FilterQuery) (limit : Nat)
    (hl : 0 < limit) :
    List.Perm (sortedListMatching store q) (listMatching store q)
    ∧ (sortedListMatching store q).Pairwise (fun a b => b.date ≤ a.date)
    ∧ (∀ a b : CostRecord, List.Sublist [a, b] (listMatching store q) → b.date ≤ a.date →
        List.Sublist [a, b] (sortedListMatching store q))
    ∧ (∀ page : Nat, (getCostRecords store q page limit).rows.length ≤ limit)
    ∧ ((List.range ((getCostRecords store q 1 limit).pagination.totalPages)).map
          (fun i => (getCostRecords store q (i + 1) limit).rows)).flatten
        = sortedListMatching store q := by
  have htrans : ∀ (a b c : CostRecord), dateDescLe a b → dateDescLe b c → dateDescLe a c := by
    intro a b c
    simp only [dateDescLe, decide_eq_true_eq]
    omega
  have htotal : ∀ (a b : CostRecord), dateDescLe a b || dateDescLe b a := by
    intro a b
    simp only [dateDescLe, Bool.or_eq_true, decide_eq_true_eq]
    omega
  refine ⟨List.mergeSort_perm _ _, ?_, ?_, ?_, ?_⟩
  · exact (List.sorted_mergeSort htrans htotal _).imp
      (by intro a b h; simpa [dateDescLe] using h)
  · intro a b hsub hdate
    exact List.pair_sublist_mergeSort htrans htotal
      (by simpa [dateDescLe] using hdate) hsub
  · intro page
    show (((sortedListMatching store q).drop ((page - 1) * limit)).take limit).length ≤ limit
    rw [List.length_take]
    exact min_le_left _ _
  · show ((List.range (((listMatching store q).length + limit - 1) / limit)).map
        (fun i => ((sortedListMatching store q).drop ((i + 1 - 1) * limit)).take limit)).flatten
      = sortedListMatching store q
    simp only [Nat.add_sub_cancel]
    have hlen : (listMatching store q).length = (sortedListMatching store q).length :=
      (List.length_mergeSort _).symm
    rw [hlen]
    exact join_pages limit hl (sortedListMatching store q)

/-- Witness for listPaginationPartition at a concrete store, query and
limit. -/
theorem listPaginationPartitionWitness :
    0 < 2
    ∧ (List.Perm (sortedListMatching tieStore unconstrainedQuery)
          (listMatching tieStore unconstrainedQuery)
      ∧ (sortedListMatching tieStore unconstrainedQuery).Pairwise (fun a b => b.date ≤ a.date)
      ∧ (∀ a b : CostRecord,
          List.Sublist [a, b] (listMatching tieStore unconstrainedQuery) → b.date ≤ a.date →
          List.Sublist [a, b] (sortedListMatching tieStore unconstrainedQuery))
      ∧ (∀ page : Nat, (getCostRecords tieStore unconstrainedQuery page 2).rows.length ≤ 2)
      ∧ ((List.range ((getCostRecords tieStore unconstrainedQuery 1 2).pagination.totalPages)).map
            (fun i => (getCostRecords tieStore unconstrainedQuery (i + 1) 2).rows)).flatten
          = sortedListMatching tieStore unconstrainedQuery) :=
  ⟨by decide, listPaginationPartition tieStore unconstrainedQuery 2 (by decide)⟩

lemma ceilDiv_bounds (n k : Nat) (hk : 0 < k) (hn : 0 < n) :
    ((n + k - 1) / k - 1) * k < n ∧ n ≤ ((n + k - 1) / k) * k := by
  have hM : (n + k - 1) / k = (n - 1) / k + 1 := by
    rw [show n + k - 1 = (n - 1) + k by omega, Nat.add_div_right _ hk]
  have h1 : (n - 1) / k * k ≤ n - 1 := Nat.div_mul_le_self _ _
  have h3 := Nat.div_add_mod (n - 1) k
  have h4 : (n - 1) % k < k := Nat.mod_lt _ hk
  rw [hM, Nat.add_sub_cancel, Nat.succ_mul]
  have h5 : (n - 1) / k * k = k * ((n - 1) / k) := Nat.mul_comm _ _
  rw [h5]
  omega

lemma ceilDiv_eq_natCeil (n k : Nat) (hk : 0 < k) :
    ((n + k - 1) / k : Nat) = Nat.ceil ((n : Rat) / (k : Rat)) := by
  rcases Nat.eq_zero_or_pos n with h0 | hn
  · subst h0
    have h1 : (0 + k - 1) / k = 0 := Nat.div_eq_of_lt (by omega)
    rw [h1]
    simp
  · have hb := ceilDiv_bounds n k hk hn
    have hMpos : 0 < (n + k - 1) / k := Nat.div_pos (by omega) hk
    have hkQ : (0 : Rat) < (k : Rat) := by exact_mod_cast hk
    rw [eq_comm, Nat.ceil_eq_iff (Nat.pos_iff_ne_zero.mp hMpos)]
    constructor
    · rw [lt_div_iff₀ hkQ]
      exact_mod_cast hb.1
    · rw [div_le_iff₀ hkQ]
      exact_mod_cast hb.2

/-- C6: the list endpoint computes offset (page-1)*limit, reports metadata
currentPage = page, totalRecords = matching count N, recordsPerPage =
limit and totalPages = ceil(N/limit) (0 when N = 0), and a page beyond
totalPages is no error: it yields an empty row list under the same
metadata. -/
theorem paginationMetadataSpec (store : List CostRecord) (q : FilterQuery) (page limit : Nat)
    (hp : 0 < page) (hl : 0 < limit) :
    (getCostRecords store q page limit).rows
        = ((sortedListMatching store q).drop ((page - 1) * limit)).take limit
    ∧ (getCostRecords store q page limit).pagination.currentPage = page
    ∧ (getCostRecords store q page limit).pagination.totalRecords
        = (listMatching store q).length
    ∧ (getCostRecords store q page limit).pagination.recordsPerPage = limit
    ∧ (getCostRecords store q page limit).pagination.totalPages
        = Nat.ceil (((listMatching store q).length : Rat) / (limit : Rat))
    ∧ ((listMatching store q).length = 0 →
        (getCostRecords store q page limit).pagination.totalPages = 0)
    ∧ ((getCostRecords store q page limit).pagination.totalPages < page →
        (getCostRecords store q page limit).rows = []) := by
  refine ⟨rfl, rfl, rfl, rfl, ceilDiv_eq_natCeil _ limit hl, ?_, ?_⟩
  · intro h0
    show ((listMatching store q).length + limit - 1) / limit = 0
    rw [h0]
    exact Nat.div_eq_of_lt (by omega)
  · intro hbeyond
    have hb2 : ((listMatching store q).length + limit - 1) / limit < page := hbeyond
    have hNle : (listMatching store q).length
        ≤ (((listMatching store q).length + limit - 1) / limit) * limit := by
      rcases Nat.eq_zero_or_pos (listMatching store q).length with h0 | hpos
      · omega
      · exact (ceilDiv_bounds _ limit hl hpos).2
    have hoff : (listMatching store q).length ≤ (page - 1) * limit := by
      calc (listMatching store q).length
          ≤ (((listMatching store q).length + limit - 1) / limit) * limit := hNle
        _ ≤ (page - 1) * limit := Nat.mul_le_mul_right _ (by omega)
    have hdrop : (sortedListMatching store q).drop ((page - 1) * limit) = [] := by
      rw [List.drop_eq_nil_iff]
      show ((listMatching store q).mergeSort dateDescLe).length ≤ (page - 1) * limit
      rw [List.length_mergeSort]
      exact hoff
    show (((sortedListMatching store q).drop ((page - 1) * limit)).take limit) = []
    rw [hdrop, List.take_nil]

/-- Witness for paginationMetadataSpec at a concrete store, query, page
and limit. -/
theorem paginationMetadataSpecWitness :
    0 < 9 ∧ 0 < 2
    ∧ ((getCostRecords tieStore startOnlyQuery 9 2).rows
          = ((sortedListMatching tieStore startOnlyQuery).drop ((9 - 1) * 2)).take 2
      ∧ (getCostRecords tieStore startOnlyQuery 9 2).pagination.currentPage = 9
      ∧ (getCostRecords tieStore startOnlyQuery 9 2).pagination.totalRecords
          = (listMatching tieStore startOnlyQuery).length
      ∧ (getCostRecords tieStore startOnlyQuery 9 2).pagination.recordsPerPage = 2
      ∧ (getCostRecords tieStore startOnlyQuery 9 2).pagination.totalPages
          = Nat.ceil (((listMatching tieStore startOnlyQuery).length : Rat) / ((2 : Nat) : Rat))
      ∧ ((listMatching tieStore startOnlyQuery).length = 0 →
          (getCostRecords tieStore startOnlyQuery 9 2).pagination.totalPages = 0)
      ∧ ((getCostRecords tieStore startOnlyQuery 9 2).pagination.totalPages < 9 →
          (getCostRecords tieStore startOnlyQuery 9 2).rows = [])) :=
  ⟨by decide, by decide, paginationMetadataSpec tieStore startOnlyQuery 9 2 (by decide) (by decide)⟩
